import Mathlib

/-!
Verification of the answer-scoring and report-aggregation engine of the
SATA AI interviewer frontend (`src/frontend/src/pages/InterviewRoom.tsx`).

The engine is embedded shallowly: JavaScript numbers are modelled as exact
rationals (`ℚ`), `Math.round` as Mathlib's `round` (round half towards
positive infinity, which agrees with `Math.round` on all reals), strings as
Lean `String`s with explicit character-list operations mirroring
`toLowerCase`, `includes`, `trim` and `split(' ')`, and the mutable
`questionScores` React state as an explicit list threaded through the
functions.
-/

namespace Sata

/-- `hay.startsWithL needle`: the character list `needle` is an initial
segment of `hay` (helper for JavaScript `String.prototype.includes`). -/
def startsWithL : List Char → List Char → Bool
  | _, [] => true
  | [], _ :: _ => false
  | c :: cs, d :: ds => c == d && startsWithL cs ds

/-- JavaScript `hay.includes(needle)`: `needle` occurs as a contiguous
substring of `hay`. -/
def containsSub : List Char → List Char → Bool
  | [], needle => needle.isEmpty
  | c :: cs, needle => startsWithL (c :: cs) needle || containsSub cs needle

/-- JavaScript `String.prototype.toLowerCase` on the character list
(ASCII-adequate, via `Char.toLower`). -/
def lowerStr (s : List Char) : List Char :=
  s.map Char.toLower

/-- Length of `s.trim()`: the number of characters remaining after removing
leading and trailing whitespace. -/
def trimLen (s : List Char) : Nat :=
  ((s.dropWhile Char.isWhitespace).reverse.dropWhile Char.isWhitespace).length

/-- JavaScript `answer.split(' ').length`: one more than the number of
space characters. -/
def wordCountOf (s : List Char) : Nat :=
  (s.splitOn ' ').length

/-- A question record as consumed by the interview room: `question_text`,
a `question_type` that may be absent (`none`) or empty (falsy in JS), and
an `expected_keywords` list defaulting to empty. -/
structure Question where
  question_text : String
  question_type : Option String
  expected_keywords : List String
deriving DecidableEq

/-- One entry of the `questionScores` React state:
`{ idx: number, score: number, skipped: boolean }`. -/
structure ScoredAnswer where
  idx : Nat
  score : ℚ
  skipped : Bool
deriving DecidableEq

/-- The report object assembled by `endInterview` and handed to the
results page. JavaScript's insertion-ordered string-keyed objects
(`category_scores`) are modelled as association lists. -/
structure Report where
  overall_score : ℤ
  grade : String
  questions_answered : Nat
  total_questions : Nat
  questions_skipped : Nat
  category_scores : List (String × ℤ)
  strengths : List String
  weaknesses : List String
  improvement_suggestions : List String
  placement_ready : String
deriving DecidableEq

/-- Line 165 of `InterviewRoom.tsx`:
`Math.round(Math.max(1, Math.min(10, x)) * 10) / 10` — clamp the weighted
sum to `[1, 10]`, then round to one decimal place. -/
def clampRound (x : ℚ) : ℚ :=
  ((round (max 1 (min 10 x) * 10) : ℤ) : ℚ) / 10

/-- `evaluateAnswer(answer, question)` from `InterviewRoom.tsx` lines
141–167, translated clause by clause.  `!answer` on a string is the
empty-string test; the two-tier floor (`0` for trivial answers, clamp to
`[1,10]` otherwise) is kept exactly. -/
def evaluateAnswer (answer : String) (question : Question) : ℚ :=
  if answer.data.isEmpty || trimLen answer.data < 5 then 0
  else
    let wordCount : Nat := wordCountOf answer.data
    let answerLower : List Char := lowerStr answer.data
    let expectedKeywords : List String := question.expected_keywords
    let keywordScore : ℚ :=
      if expectedKeywords.length > 0 then
        let matchCount : Nat :=
          (expectedKeywords.filter
            (fun kw => containsSub answerLower (lowerStr kw.data))).length
        ((matchCount : ℚ) / (expectedKeywords.length : ℚ)) * 10
      else 5
    let lengthScore : ℚ := min 10 ((wordCount : ℚ) / 10)
    let structureScore : ℚ :=
      4 + (if (["for example", "such as", "because", "therefore"].any
              (fun w => containsSub answerLower w.data)) then 2 else 0)
        + (if (["first", "second", "third", "step"].any
              (fun w => containsSub answerLower w.data)) then 2 else 0)
        + (if 30 ≤ wordCount then 2 else 0)
    clampRound
      (keywordScore * (4/10) + lengthScore * (3/10) + structureScore * (3/10))

/-- The `setQuestionScores(prev => [...prev, entry])` state update used by
both `stopRecording` and `skipQuestion`: the new entry is appended
unconditionally. -/
def recordScore (prev : List ScoredAnswer) (entry : ScoredAnswer) :
    List ScoredAnswer :=
  prev ++ [entry]

/-- The synthesized entry for a question never answered nor skipped:
`{ idx: i, score: 0, skipped: true }`. -/
def mkSkip (i : Nat) : ScoredAnswer :=
  { idx := i, score := 0, skipped := true }

/-- `!allScores.find(s => s.idx === i)` negated: some entry of `l` has
index `i`. -/
def hasIdx (l : List ScoredAnswer) (i : Nat) : Bool :=
  (l.find? (fun s => s.idx == i)).isSome

/-- One iteration of the reconciliation loop in `endInterview` lines
233–237. -/
def reconcileStep (acc : List ScoredAnswer) (i : Nat) : List ScoredAnswer :=
  if hasIdx acc i then acc else acc ++ [mkSkip i]

/-- The reconciliation loop of `endInterview`: every index in
`[0, questionCount)` with no entry gets a skipped entry with score 0
appended. -/
def reconcile (questionCount : Nat) (questionScores : List ScoredAnswer) :
    List ScoredAnswer :=
  (List.range questionCount).foldl reconcileStep questionScores

/-- `q?.question_type || 'general'` for the question at `s.idx`:
out-of-range indices and absent or empty `question_type` all fall back to
`"general"`. -/
def qTypeOf (questions : List Question) (s : ScoredAnswer) : String :=
  match questions[s.idx]? with
  | some q =>
    match q.question_type with
    | some t => if t == "" then "general" else t
    | none => "general"
  | none => "general"

/-- Insertion into the `categoryScores` object: an existing key keeps its
position and has the score appended to its list, a new key is appended at
the end (JavaScript object insertion order). -/
def pushCategory (m : List (String × List ℚ)) (k : String) (v : ℚ) :
    List (String × List ℚ) :=
  if m.any (fun p => p.1 == k) then
    m.map (fun p => if p.1 == k then (p.1, p.2 ++ [v]) else p)
  else m ++ [(k, [v])]

/-- `catAvg[key]` lookup, `none` when the key is absent (JavaScript
`undefined`). -/
def lookupCat (catAvg : List (String × ℤ)) (k : String) : Option ℤ :=
  (catAvg.find? (fun p => p.1 == k)).map (fun p => p.2)

/-- The grade ladder of `endInterview` lines 263–272, evaluated high to
low. -/
def gradeOf (overallScore : ℤ) : String :=
  if 90 ≤ overallScore then "A+"
  else if 80 ≤ overallScore then "A"
  else if 70 ≤ overallScore then "B+"
  else if 60 ≤ overallScore then "B"
  else if 50 ≤ overallScore then "C+"
  else if 40 ≤ overallScore then "C"
  else if 30 ≤ overallScore then "D"
  else "F"

/-- `endInterview` from `InterviewRoom.tsx` lines 228–312 as a pure
function of the fetched question list and the accumulated
`questionScores` state, producing the report objected handed to the
results page. -/
def endInterview (questions : List Question)
    (questionScores : List ScoredAnswer) : Report :=
  let allScores : List ScoredAnswer := reconcile questions.length questionScores
  let totalQuestions : Nat := questions.length
  let answeredCount : Nat := (allScores.filter (fun s => !s.skipped)).length
  let skippedCount : Nat := (allScores.filter (fun s => s.skipped)).length
  let avgScore : ℚ :=
    if 0 < totalQuestions then
      (allScores.map ScoredAnswer.score).sum / (totalQuestions : ℚ)
    else 0
  let overallScore : ℤ := round (avgScore * 10)
  let categoryScores : List (String × List ℚ) :=
    allScores.foldl (fun m s => pushCategory m (qTypeOf questions s) s.score) []
  let catAvg : List (String × ℤ) :=
    categoryScores.map (fun p => (p.1, round ((p.2.sum / (p.2.length : ℚ)) * 10)))
  let grade : String := gradeOf overallScore
  let sw : List String × List String :=
    catAvg.foldl (fun acc p =>
      if 70 ≤ p.2 then (acc.1 ++ ["Strong " ++ p.1 ++ " skills"], acc.2)
      else if p.2 < 40 then
        (acc.1, acc.2 ++ ["Needs improvement in " ++ p.1 ++ " areas"])
      else acc) ([], [])
  let weaknesses1 : List String :=
    if 0 < skippedCount then
      sw.2 ++ ["Skipped " ++ toString skippedCount ++ " question(s)"]
    else sw.2
  let strengths1 : List String :=
    if answeredCount == totalQuestions && 60 ≤ overallScore then
      sw.1 ++ ["Answered all questions"]
    else sw.1
  let strengths : List String :=
    if strengths1.isEmpty then ["Participated in the interview"] else strengths1
  let weaknesses : List String :=
    if weaknesses1.isEmpty then ["No major weaknesses identified"] else weaknesses1
  let suggestions0 : List String :=
    (if overallScore < 70 then
      ["Practice answering questions out loud to improve fluency"] else [])
    ++ (match lookupCat catAvg "technical" with
        | some v =>
          if v < 60 then
            ["Review core technical concepts and practice coding problems"]
          else []
        | none => [])
    ++ (match lookupCat catAvg "hr" with
        | some v =>
          if v < 60 then
            ["Prepare STAR method responses for behavioral questions"]
          else []
        | none => [])
    ++ (if 0 < skippedCount then
          ["Try to attempt all questions instead of skipping"] else [])
    ++ (if overallScore < 50 then
          ["Consider taking mock interviews to build confidence"] else [])
  let suggestions : List String :=
    if suggestions0.isEmpty then
      ["Continue practicing to maintain your skills"] else suggestions0
  let placementReady : String :=
    if 70 ≤ overallScore then "Ready"
    else if 50 ≤ overallScore then "Needs Work"
    else "Not Ready"
  { overall_score := overallScore
    grade := grade
    questions_answered := answeredCount
    total_questions := totalQuestions
    questions_skipped := skippedCount
    category_scores := catAvg
    strengths := strengths
    weaknesses := weaknesses
    improvement_suggestions := suggestions
    placement_ready := placementReady }

/-- The mock question set of `initializeInterview` (the five demo
questions). -/
def mockQuestions : List Question :=
  [ { question_text := "Tell me about yourself and your background in technology.",
      question_type := some "hr", expected_keywords := [] },
    { question_text := "What programming languages are you most proficient in?",
      question_type := some "technical", expected_keywords := [] },
    { question_text := "Describe a challenging project you've worked on.",
      question_type := some "project", expected_keywords := [] },
    { question_text := "How do you handle debugging a complex issue?",
      question_type := some "scenario", expected_keywords := [] },
    { question_text := "What are your career goals for the next 5 years?",
      question_type := some "hr", expected_keywords := [] } ]

/-- A single technical question used as a concrete test input. -/
def exTechQuestion : Question :=
  { question_text := "Q", question_type := some "technical",
    expected_keywords := [] }

/-- The worked example question of the specification: technical, with
expected keywords `["recursion", "base case"]`. -/
def recursionQuestion : Question :=
  { question_text := "Explain recursion.", question_type := some "technical",
    expected_keywords := ["recursion", "base case"] }

/-- The worked example answer of the specification. -/
def recursionAnswer : String :=
  "Recursion works by breaking a problem into a base case and smaller subproblems, for example computing factorial."

/-- The five-question example: three answered with scores 8, 6, 4 and two
skipped. -/
def fiveScored : List ScoredAnswer :=
  [⟨0, 8, false⟩, ⟨1, 6, false⟩, ⟨2, 4, false⟩, ⟨3, 0, true⟩, ⟨4, 0, true⟩]

/-- A one-entry scored list for exercising the duplicate-event behaviour. -/
def dupPrev : List ScoredAnswer := [⟨0, 8, false⟩]

/-- A duplicate event for the already-scored index 0. -/
def dupEntry : ScoredAnswer := ⟨0, 2, false⟩

/-- A one-entry scored list used as a concrete witness input. -/
def oneScored : List ScoredAnswer := [⟨0, 8, false⟩]

/-- A concrete answered entry used for the skip-monotonicity witness. -/
def monoE : ScoredAnswer := ⟨1, 6, false⟩

/-! ## Helper lemmas -/

attribute [local semireducible] Rat.add Rat.mul Rat.inv Rat.sub

set_option maxRecDepth 16384

/-- `round` is monotone on the rationals. -/
theorem round_mono_rat {x y : ℚ} (h : x ≤ y) : round x ≤ round y := by
  rw [round_eq, round_eq]
  exact Int.floor_mono (by linarith)

/-- The final clamp-and-round of `evaluateAnswer` lands in `[1, 10]` and
is an integer multiple of one tenth. -/
theorem clampRound_props (x : ℚ) :
    1 ≤ clampRound x ∧ clampRound x ≤ 10 ∧
      ∃ k : ℤ, clampRound x * 10 = (k : ℚ) := by
  have h1 : (1 : ℚ) ≤ max 1 (min 10 x) := le_max_left _ _
  have h2 : max 1 (min 10 x) ≤ 10 := max_le (by norm_num) (min_le_left _ _)
  have hlo : (10 : ℤ) ≤ round (max 1 (min 10 x) * 10) := by
    have h10 : round (10 : ℚ) = 10 := by norm_num
    calc (10 : ℤ) = round (10 : ℚ) := h10.symm
      _ ≤ round (max 1 (min 10 x) * 10) := round_mono_rat (by nlinarith)
  have hhi : round (max 1 (min 10 x) * 10) ≤ (100 : ℤ) := by
    have h100 : round (100 : ℚ) = 100 := by norm_num
    calc round (max 1 (min 10 x) * 10) ≤ round (100 : ℚ) :=
          round_mono_rat (by nlinarith)
      _ = 100 := h100
  refine ⟨?_, ?_, ⟨round (max 1 (min 10 x) * 10), ?_⟩⟩
  · rw [clampRound, le_div_iff₀ (by norm_num : (0:ℚ) < 10)]
    have hc : ((10:ℤ):ℚ) ≤ ((round (max 1 (min 10 x) * 10) : ℤ) : ℚ) := by
      exact_mod_cast hlo
    push_cast at hc ⊢
    linarith
  · rw [clampRound, div_le_iff₀ (by norm_num : (0:ℚ) < 10)]
    have hc : ((round (max 1 (min 10 x) * 10) : ℤ) : ℚ) ≤ ((100:ℤ):ℚ) := by
      exact_mod_cast hhi
    push_cast at hc ⊢
    linarith
  · rw [clampRound, div_mul_cancel₀]
    norm_num

/-- `hasIdx` read as a membership statement. -/
theorem hasIdx_iff (l : List ScoredAnswer) (i : Nat) :
    hasIdx l i = true ↔ ∃ s ∈ l, s.idx = i := by
  simp [hasIdx, List.find?_isSome]

/-- `hasIdx` distributes over list append as a disjunction. -/
theorem hasIdx_append (l₁ l₂ : List ScoredAnswer) (i : Nat) :
    hasIdx (l₁ ++ l₂) i = (hasIdx l₁ i || hasIdx l₂ i) := by
  rw [Bool.eq_iff_iff]
  simp [hasIdx_iff, List.mem_append, or_and_right, exists_or]

/-- `hasIdx` on a singleton is an index comparison. -/
theorem hasIdx_singleton (x : ScoredAnswer) (i : Nat) :
    hasIdx [x] i = (x.idx == i) := by
  cases h : x.idx == i <;> simp [hasIdx, List.find?, h]

/-- Unfolding of the reconciliation loop over any duplicate-free index
list: the synthesized skips for the missing indices are appended after the
original entries, in list order. -/
theorem foldl_reconcileStep_eq (l : List Nat) :
    ∀ scored : List ScoredAnswer, l.Nodup →
      l.foldl reconcileStep scored =
        scored ++ (l.filter (fun i => !hasIdx scored i)).map mkSkip := by
  induction l with
  | nil => intro scored _; simp
  | cons i t ih =>
    intro scored hnd
    rw [List.nodup_cons] at hnd
    obtain ⟨hit, hnt⟩ := hnd
    rw [List.foldl_cons]
    by_cases h : hasIdx scored i = true
    · rw [show reconcileStep scored i = scored from by simp [reconcileStep, h]]
      rw [ih scored hnt, List.filter_cons]
      simp [h]
    · have hb : hasIdx scored i = false := by
        cases hx : hasIdx scored i
        · rfl
        · exact absurd hx h
      have hstep : reconcileStep scored i = scored ++ [mkSkip i] := by
        simp [reconcileStep, hb]
      rw [hstep, ih _ hnt]
      have hcong : ∀ j ∈ t,
          (!hasIdx (scored ++ [mkSkip i]) j) = (!hasIdx scored j) := by
        intro j hj
        have hij : i ≠ j := fun h' => hit (h' ▸ hj)
        rw [hasIdx_append, hasIdx_singleton]
        have : ((mkSkip i).idx == j) = false := by
          simp [mkSkip, hij]
        rw [this, Bool.or_false]
      rw [List.filter_congr hcong, List.filter_cons]
      simp [hb, List.append_assoc]

/-- Characterization of `reconcile`: original entries first, then one
synthesized skip for each missing index of `[0, total)` in increasing
order. -/
theorem reconcile_eq (total : Nat) (scored : List ScoredAnswer) :
    reconcile total scored =
      scored ++
        ((List.range total).filter (fun i => !hasIdx scored i)).map mkSkip :=
  foldl_reconcileStep_eq (List.range total) scored (List.nodup_range total)

/-- When every index of `[0, total)` already has an entry, reconciliation
changes nothing. -/
theorem reconcile_of_complete {total : Nat} {scored : List ScoredAnswer}
    (h : ∀ i, i < total → hasIdx scored i = true) :
    reconcile total scored = scored := by
  rw [reconcile_eq]
  have hnil : (List.range total).filter (fun i => !hasIdx scored i) = [] := by
    rw [List.filter_eq_nil_iff]
    intro a ha
    simp [h a (List.mem_range.mp ha)]
  rw [hnil]
  simp

/-- When the recorded indices are duplicate-free and in range, the
reconciled indices are a permutation of `[0, total)`. -/
theorem reconcile_idx_perm {total : Nat} {scored : List ScoredAnswer}
    (hnd : (scored.map ScoredAnswer.idx).Nodup)
    (hlt : ∀ s ∈ scored, s.idx < total) :
    ((reconcile total scored).map ScoredAnswer.idx).Perm (List.range total) := by
  rw [reconcile_eq, List.map_append, List.map_map]
  have hid : List.map (ScoredAnswer.idx ∘ mkSkip)
      ((List.range total).filter (fun i => !hasIdx scored i)) =
      (List.range total).filter (fun i => !hasIdx scored i) := by
    have hc : ScoredAnswer.idx ∘ mkSkip = id := rfl
    rw [hc, List.map_id]
  rw [hid]
  have hmem_idx : ∀ a, a ∈ scored.map ScoredAnswer.idx ↔ hasIdx scored a = true := by
    intro a
    rw [hasIdx_iff, List.mem_map]
  apply (List.perm_ext_iff_of_nodup ?_ (List.nodup_range total)).mpr
  · intro a
    constructor
    · intro ha
      rcases List.mem_append.mp ha with h1 | h2
      · obtain ⟨s, hs, rfl⟩ := List.mem_map.mp h1
        exact List.mem_range.mpr (hlt s hs)
      · exact (List.mem_filter.mp h2).1
    · intro ha
      by_cases hp : hasIdx scored a = true
      · exact List.mem_append.mpr (Or.inl ((hmem_idx a).mpr hp))
      · refine List.mem_append.mpr (Or.inr (List.mem_filter.mpr ⟨ha, ?_⟩))
        simp only [Bool.not_eq_true'] at *
        simp [Bool.not_eq_true] at hp ⊢
        exact hp
  · rw [List.nodup_append]
    refine ⟨hnd, (List.nodup_range total).filter _, ?_⟩
    intro a ha hb
    have h1 : hasIdx scored a = true := (hmem_idx a).mp ha
    have h2 := (List.mem_filter.mp hb).2
    rw [h1] at h2
    exact absurd h2 (by decide)

/-- Under the same hypotheses, the reconciled list has exactly
`total` entries. -/
theorem reconcile_length {total : Nat} {scored : List ScoredAnswer}
    (hnd : (scored.map ScoredAnswer.idx).Nodup)
    (hlt : ∀ s ∈ scored, s.idx < total) :
    (reconcile total scored).length = total := by
  have h := (reconcile_idx_perm hnd hlt).length_eq
  simpa using h

/-- Splitting a list of scored answers by the `skipped` flag partitions
its length. -/
theorem length_filter_skipped (l : List ScoredAnswer) :
    (l.filter (fun s => !s.skipped)).length +
        (l.filter (fun s => s.skipped)).length = l.length := by
  induction l with
  | nil => rfl
  | cons a t ih =>
    cases h : a.skipped <;> simp [List.filter_cons, h] <;> omega

/-! ## Field accessors of `endInterview` -/

theorem endInterview_total (questions : List Question)
    (scored : List ScoredAnswer) :
    (endInterview questions scored).total_questions = questions.length := rfl

theorem endInterview_answered (questions : List Question)
    (scored : List ScoredAnswer) :
    (endInterview questions scored).questions_answered =
      ((reconcile questions.length scored).filter (fun s => !s.skipped)).length :=
  rfl

theorem endInterview_skipped (questions : List Question)
    (scored : List ScoredAnswer) :
    (endInterview questions scored).questions_skipped =
      ((reconcile questions.length scored).filter (fun s => s.skipped)).length :=
  rfl

theorem endInterview_overall (questions : List Question)
    (scored : List ScoredAnswer) :
    (endInterview questions scored).overall_score =
      round ((if 0 < questions.length then
          ((reconcile questions.length scored).map ScoredAnswer.score).sum /
            (questions.length : ℚ)
        else 0) * 10) := rfl

/-! ## Claims -/

/-- Claim C3: the grade mapping partitions `[0, 100]`: for every integer
overall score up to 100, the grade is `A+` iff it is at least 90, `A` iff
it lies in `[80, 90)`, and so on down to `F` for scores below 30, with
each integer receiving exactly one grade; and the report's grade is
exactly this function of its overall score. -/
theorem grade_bands_partition :
    (∀ n : ℕ, n ≤ 100 →
      ((gradeOf (n : ℤ) = "A+" ↔ 90 ≤ n) ∧
       (gradeOf (n : ℤ) = "A" ↔ 80 ≤ n ∧ n < 90) ∧
       (gradeOf (n : ℤ) = "B+" ↔ 70 ≤ n ∧ n < 80) ∧
       (gradeOf (n : ℤ) = "B" ↔ 60 ≤ n ∧ n < 70) ∧
       (gradeOf (n : ℤ) = "C+" ↔ 50 ≤ n ∧ n < 60) ∧
       (gradeOf (n : ℤ) = "C" ↔ 40 ≤ n ∧ n < 50) ∧
       (gradeOf (n : ℤ) = "D" ↔ 30 ≤ n ∧ n < 40) ∧
       (gradeOf (n : ℤ) = "F" ↔ n < 30))) ∧
    ∀ (questions : List Question) (scored : List ScoredAnswer),
      (endInterview questions scored).grade =
        gradeOf (endInterview questions scored).overall_score := by
  constructor
  · decide
  · intro questions scored
    rfl

/-- Witness for C3 at the concrete score 85. -/
theorem grade_bands_partition_witness :
    gradeOf ((85 : ℕ) : ℤ) = "A" ↔ 80 ≤ (85 : ℕ) ∧ (85 : ℕ) < 90 :=
  (grade_bands_partition.1 85 (by decide)).2.1

/-- Claim C6 counterexample: on the empty interview the suggestion list is
not the generic fallback — `overall_score = 0` triggers the two low-score
suggestions, so the fallback branch is never reached. -/
theorem empty_interview_counterexample :
    (endInterview [] []).improvement_suggestions ≠
      ["Continue practicing to maintain your skills"] := by decide

/-- Claim C6 (amended): the empty interview yields overall score 0, an
empty category map, the fallback strength and weakness, and the two
low-score suggestions (fluency practice and mock interviews) rather than
the generic fallback suggestion; no division by zero occurs. -/
theorem empty_interview_report :
    endInterview [] [] =
      { overall_score := 0, grade := "F", questions_answered := 0,
        total_questions := 0, questions_skipped := 0, category_scores := [],
        strengths := ["Participated in the interview"],
        weaknesses := ["No major weaknesses identified"],
        improvement_suggestions :=
          ["Practice answering questions out loud to improve fluency",
           "Consider taking mock interviews to build confidence"],
        placement_ready := "Not Ready" } := by decide

/-- Claim C7: on the specification's worked example the score is exactly
6.3, with both expected keywords matching case-insensitively. -/
theorem recursion_example_score :
    evaluateAnswer recursionAnswer recursionQuestion = 63 / 10 ∧
    (recursionQuestion.expected_keywords.filter
        (fun kw => containsSub (lowerStr recursionAnswer.data)
          (lowerStr kw.data))).length = 2 := by
  decide

/-- Claim C8 counterexample: on the 5-question example with scores
`[8, 6, 4]` and two skips the code reports grade `"D"` (36 is below the
40 threshold for `"C"`), refuting the claimed grade `"C"`. -/
theorem five_question_example_counterexample :
    ¬ ((endInterview mockQuestions fiveScored).overall_score = 36 ∧
       (endInterview mockQuestions fiveScored).grade = "C" ∧
       (endInterview mockQuestions fiveScored).placement_ready =
         "Not Ready") := by decide

/-- Claim C8 (amended): the 5-question example yields overall score 36,
grade `"D"` (not `"C"`), and placement readiness `"Not Ready"`. -/
theorem five_question_example_report :
    (endInterview mockQuestions fiveScored).overall_score = 36 ∧
    (endInterview mockQuestions fiveScored).grade = "D" ∧
    (endInterview mockQuestions fiveScored).placement_ready = "Not Ready" := by
  decide

/-- Claim C4 counterexample: with a duplicate entry for index 0 in a
one-question interview, the report has `questions_answered = 2` and
`questions_skipped = 0` while `total_questions = 1`, so the invariant
fails for scored lists with duplicate indices. -/
theorem answered_add_skipped_counterexample :
    ¬ ((endInterview [exTechQuestion]
          [⟨0, 5, false⟩, ⟨0, 3, false⟩]).questions_answered +
        (endInterview [exTechQuestion]
          [⟨0, 5, false⟩, ⟨0, 3, false⟩]).questions_skipped =
       (endInterview [exTechQuestion]
          [⟨0, 5, false⟩, ⟨0, 3, false⟩]).total_questions) := by decide

/-- Claim C5 counterexample: a second event for the already-scored index 0
is not rejected — it changes the stored list, and the duplicate raises the
overall score from 80 to 100, so it does contribute a second entry to the
aggregation. -/
theorem duplicate_event_counterexample :
    recordScore [⟨0, 8, false⟩] ⟨0, 2, false⟩ ≠ [⟨0, 8, false⟩] ∧
    (endInterview [exTechQuestion]
        (recordScore [⟨0, 8, false⟩] ⟨0, 2, false⟩)).overall_score = 100 ∧
    (endInterview [exTechQuestion] [⟨0, 8, false⟩]).overall_score = 80 := by
  decide

/-- Claim C10: a scored entry whose index has no question, or whose
question has an absent or empty `question_type`, is grouped under the
category `"general"`; concretely, a report can contain a `"general"`
category even though no question declares it. -/
theorem category_fallback_general :
    (∀ (questions : List Question) (s : ScoredAnswer),
        (questions[s.idx]? = none ∨
          ∃ q, questions[s.idx]? = some q ∧
            (q.question_type = none ∨ q.question_type = some "")) →
        qTypeOf questions s = "general") ∧
    (endInterview [exTechQuestion] [⟨0, 5, false⟩, ⟨3, 2, false⟩]).category_scores =
        [("technical", 50), ("general", 20)] ∧
    ∀ q ∈ [exTechQuestion], ¬ q.question_type = some "general" := by
  refine ⟨?_, by decide, by decide⟩
  intro questions s h
  rcases h with h | ⟨q, hq, ht | ht⟩
  · simp [qTypeOf, h]
  · simp [qTypeOf, hq, ht]
  · simp [qTypeOf, hq, ht]

/-- Witness for C10: the out-of-range entry of the concrete example is
grouped under `"general"`. -/
theorem category_fallback_general_witness :
    qTypeOf [exTechQuestion] ⟨3, 2, false⟩ = "general" :=
  category_fallback_general.1 [exTechQuestion] ⟨3, 2, false⟩ (Or.inl rfl)

/-- Claim C1: `evaluateAnswer` has an exact two-tier floor.  An absent or
short answer (trimmed length below 5, which covers the empty string)
scores exactly 0; any other answer scores in `[1, 10]` in multiples of
one tenth; and the function is deterministic in its input. -/
theorem evaluateAnswer_two_tier_floor (answer : String) (question : Question) :
    (trimLen answer.data < 5 → evaluateAnswer answer question = 0) ∧
    (5 ≤ trimLen answer.data →
      1 ≤ evaluateAnswer answer question ∧
      evaluateAnswer answer question ≤ 10 ∧
      ∃ k : ℤ, evaluateAnswer answer question * 10 = (k : ℚ)) ∧
    evaluateAnswer answer question = evaluateAnswer answer question := by
  refine ⟨?_, ?_, rfl⟩
  · intro h
    simp [evaluateAnswer, h]
  · intro h
    have hne : answer.data.isEmpty = false := by
      cases hd : answer.data with
      | nil => exact absurd (hd ▸ h) (by decide)
      | cons c cs => rfl
    have hnlt : ¬ trimLen answer.data < 5 := Nat.not_lt.mpr h
    rw [evaluateAnswer, if_neg (by simp [hne, hnlt])]
    exact clampRound_props _

/-- Witness for C1: a two-character answer scores 0 and an eleven-character
answer scores at least 1. -/
theorem evaluateAnswer_two_tier_floor_witness :
    evaluateAnswer "ab" exTechQuestion = 0 ∧
      1 ≤ evaluateAnswer "hello there" exTechQuestion :=
  ⟨(evaluateAnswer_two_tier_floor "ab" exTechQuestion).1 (by decide),
   ((evaluateAnswer_two_tier_floor "hello there" exTechQuestion).2.1
      (by decide)).1⟩

/-- Claim C4 (amended): for every scored list whose indices are pairwise
distinct and within range, the report satisfies
`questions_answered + questions_skipped = total_questions`. -/
theorem answered_add_skipped_eq_total (questions : List Question)
    (scored : List ScoredAnswer)
    (hnd : (scored.map ScoredAnswer.idx).Nodup)
    (hlt : ∀ s ∈ scored, s.idx < questions.length) :
    (endInterview questions scored).questions_answered +
        (endInterview questions scored).questions_skipped =
      (endInterview questions scored).total_questions := by
  rw [endInterview_answered, endInterview_skipped, endInterview_total,
    length_filter_skipped]
  exact reconcile_length hnd hlt

/-- Witness for C4's amended theorem on a concrete two-entry list. -/
theorem answered_add_skipped_eq_total_witness :
    (endInterview mockQuestions [⟨0, 7, false⟩, ⟨2, 0, true⟩]).questions_answered +
        (endInterview mockQuestions [⟨0, 7, false⟩, ⟨2, 0, true⟩]).questions_skipped =
      (endInterview mockQuestions [⟨0, 7, false⟩, ⟨2, 0, true⟩]).total_questions :=
  answered_add_skipped_eq_total mockQuestions [⟨0, 7, false⟩, ⟨2, 0, true⟩]
    (by decide) (by decide)

/-- Claim C5 (amended): a second event for an index that already has a
score is not rejected — it is appended to the scored list like any other
event, and when every index already has an entry the overall score is the
rounded scaled mean over all entries including the duplicate, still
divided by the number of questions. -/
theorem duplicate_event_appended (questions : List Question)
    (prev : List ScoredAnswer) (entry : ScoredAnswer)
    (_hdup : hasIdx prev entry.idx = true)
    (hall : ∀ i, i < questions.length → hasIdx prev i = true) :
    recordScore prev entry = prev ++ [entry] ∧
    (endInterview questions (recordScore prev entry)).overall_score =
      round ((((prev ++ [entry]).map ScoredAnswer.score).sum /
          (questions.length : ℚ)) * 10) := by
  refine ⟨rfl, ?_⟩
  rw [endInterview_overall]
  have hall2 : ∀ i, i < questions.length →
      hasIdx (recordScore prev entry) i = true := by
    intro i hi
    rw [recordScore, hasIdx_append, hall i hi, Bool.true_or]
  rw [reconcile_of_complete hall2]
  by_cases hT : 0 < questions.length
  · rw [if_pos hT, recordScore]
  · rw [if_neg hT]
    have h0 : questions.length = 0 := by omega
    rw [h0]
    norm_num

/-- Witness for C5's amended theorem: the duplicate for index 0 is
appended and counted. -/
theorem duplicate_event_appended_witness :
    recordScore dupPrev dupEntry = dupPrev ++ [dupEntry] ∧
    (endInterview [exTechQuestion] (recordScore dupPrev dupEntry)).overall_score =
      round ((((dupPrev ++ [dupEntry]).map ScoredAnswer.score).sum /
        (([exTechQuestion] : List Question).length : ℚ)) * 10) :=
  duplicate_event_appended [exTechQuestion] dupPrev dupEntry
    (by decide) (by decide)

/-- Claim C2: for a scored list with one entry per in-range index (missing
indices reconciled as skipped 0), the overall score is the sum of all
per-question scores (skipped counted as 0) over the total number of
questions, scaled by 10 and rounded, and lies in `[0, 100]`. -/
theorem overall_score_is_scaled_mean (questions : List Question)
    (scored : List ScoredAnswer)
    (hnd : (scored.map ScoredAnswer.idx).Nodup)
    (hlt : ∀ s ∈ scored, s.idx < questions.length)
    (hbd : ∀ s ∈ scored, 0 ≤ s.score ∧ s.score ≤ 10)
    (hsk : ∀ s ∈ scored, s.skipped = true → s.score = 0) :
    (endInterview questions scored).overall_score =
      round ((((reconcile questions.length scored).map
            (fun s => if s.skipped = true then 0 else s.score)).sum /
          (questions.length : ℚ)) * 10) ∧
    0 ≤ (endInterview questions scored).overall_score ∧
    (endInterview questions scored).overall_score ≤ 100 := by
  have hmem : ∀ s ∈ reconcile questions.length scored,
      (if s.skipped = true then (0 : ℚ) else s.score) = s.score := by
    intro s hs
    rw [reconcile_eq] at hs
    rcases List.mem_append.mp hs with h1 | h2
    · cases hskk : s.skipped with
      | true => simpa [hskk] using (hsk s h1 hskk).symm
      | false => simp [hskk]
    · obtain ⟨i, hi, rfl⟩ := List.mem_map.mp h2
      simp [mkSkip]
  have hsum_eq :
      ((reconcile questions.length scored).map
        (fun s => if s.skipped = true then (0:ℚ) else s.score)).sum =
      ((reconcile questions.length scored).map ScoredAnswer.score).sum := by
    rw [List.map_congr_left hmem]
  have hbR : ∀ x ∈ (reconcile questions.length scored).map ScoredAnswer.score,
      0 ≤ x ∧ x ≤ 10 := by
    intro x hx
    obtain ⟨s, hs, rfl⟩ := List.mem_map.mp hx
    rw [reconcile_eq] at hs
    rcases List.mem_append.mp hs with h1 | h2
    · exact hbd s h1
    · obtain ⟨i, hi, rfl⟩ := List.mem_map.mp h2
      constructor <;> norm_num [mkSkip]
  rw [endInterview_overall, hsum_eq]
  by_cases hT : 0 < questions.length
  · rw [if_pos hT]
    have hS0 : 0 ≤ ((reconcile questions.length scored).map ScoredAnswer.score).sum :=
      List.sum_nonneg (fun x hx => (hbR x hx).1)
    have hS10 : ((reconcile questions.length scored).map ScoredAnswer.score).sum ≤
        ((reconcile questions.length scored).map ScoredAnswer.score).length • (10:ℚ) :=
      List.sum_le_card_nsmul _ _ (fun x hx => (hbR x hx).2)
    rw [List.length_map, reconcile_length hnd hlt, nsmul_eq_mul] at hS10
    have hTpos : (0:ℚ) < (questions.length : ℚ) := by exact_mod_cast hT
    have havg0 : 0 ≤
        ((reconcile questions.length scored).map ScoredAnswer.score).sum /
          (questions.length : ℚ) := div_nonneg hS0 hTpos.le
    have havg10 :
        ((reconcile questions.length scored).map ScoredAnswer.score).sum /
          (questions.length : ℚ) ≤ 10 := by
      rw [div_le_iff₀ hTpos]
      linarith
    refine ⟨rfl, ?_, ?_⟩
    · have h0 : round (0:ℚ) ≤
          round (((reconcile questions.length scored).map ScoredAnswer.score).sum /
            (questions.length : ℚ) * 10) := round_mono_rat (by nlinarith)
      simpa using h0
    · have h100 :
          round (((reconcile questions.length scored).map ScoredAnswer.score).sum /
            (questions.length : ℚ) * 10) ≤ round (100:ℚ) :=
        round_mono_rat (by nlinarith)
      have hr : round (100:ℚ) = 100 := by norm_num
      omega
  · rw [if_neg hT]
    have h0 : questions.length = 0 := by omega
    have hsc : scored = [] := by
      cases hs : scored with
      | nil => rfl
      | cons a t =>
        exfalso
        have := hlt a (by rw [hs]; exact List.mem_cons_self a t)
        omega
    subst hsc
    rw [h0]
    refine ⟨?_, by norm_num, by norm_num⟩
    norm_num [reconcile]

/-- Witness for C2 with a single answered question out of five. -/
theorem overall_score_is_scaled_mean_witness :
    (endInterview mockQuestions oneScored).overall_score =
      round ((((reconcile mockQuestions.length oneScored).map
            (fun s => if s.skipped = true then 0 else s.score)).sum /
          (mockQuestions.length : ℚ)) * 10) ∧
    0 ≤ (endInterview mockQuestions oneScored).overall_score ∧
    (endInterview mockQuestions oneScored).overall_score ≤ 100 :=
  overall_score_is_scaled_mean mockQuestions oneScored
    (by decide) (by decide) (by decide) (by decide)

/-- Claim C9: holding everything else fixed, replacing one answered entry
by a skipped entry with score 0 never increases the overall score. -/
theorem overall_score_skip_monotone (questions : List Question)
    (l₁ l₂ : List ScoredAnswer) (e : ScoredAnswer)
    (_hnd : ((l₁ ++ e :: l₂).map ScoredAnswer.idx).Nodup)
    (hlt : ∀ s ∈ l₁ ++ e :: l₂, s.idx < questions.length)
    (_hans : e.skipped = false)
    (hpos : 0 ≤ e.score) :
    (endInterview questions (l₁ ++ mkSkip e.idx :: l₂)).overall_score ≤
      (endInterview questions (l₁ ++ e :: l₂)).overall_score := by
  have hT : 0 < questions.length := by
    have := hlt e (List.mem_append.mpr (Or.inr (List.mem_cons_self e l₂)))
    omega
  have hmask : ∀ i, hasIdx (l₁ ++ mkSkip e.idx :: l₂) i
      = hasIdx (l₁ ++ e :: l₂) i := by
    intro i
    have h1 : l₁ ++ mkSkip e.idx :: l₂ = (l₁ ++ [mkSkip e.idx]) ++ l₂ := by
      simp
    have h2 : l₁ ++ e :: l₂ = (l₁ ++ [e]) ++ l₂ := by
      simp
    rw [h1, h2, hasIdx_append, hasIdx_append, hasIdx_append, hasIdx_append,
      hasIdx_singleton, hasIdx_singleton]
    rfl
  have htail : (List.range questions.length).filter
        (fun i => !hasIdx (l₁ ++ mkSkip e.idx :: l₂) i) =
      (List.range questions.length).filter
        (fun i => !hasIdx (l₁ ++ e :: l₂) i) := by
    apply List.filter_congr
    intro i _
    rw [hmask i]
  rw [endInterview_overall, endInterview_overall, if_pos hT, if_pos hT,
    reconcile_eq, reconcile_eq, htail]
  apply round_mono_rat
  have hTpos : (0:ℚ) < (questions.length : ℚ) := by exact_mod_cast hT
  have hsum : (((l₁ ++ mkSkip e.idx :: l₂) ++
        ((List.range questions.length).filter
          (fun i => !hasIdx (l₁ ++ e :: l₂) i)).map mkSkip).map
          ScoredAnswer.score).sum ≤
      (((l₁ ++ e :: l₂) ++
        ((List.range questions.length).filter
          (fun i => !hasIdx (l₁ ++ e :: l₂) i)).map mkSkip).map
          ScoredAnswer.score).sum := by
    simp only [List.map_append, List.sum_append, List.map_cons, List.sum_cons,
      mkSkip]
    linarith
  exact mul_le_mul_of_nonneg_right
    ((div_le_div_iff_of_pos_right hTpos).mpr hsum) (by norm_num)

/-- Witness for C9: skipping the second of two answered questions out of
five does not increase the overall score. -/
theorem overall_score_skip_monotone_witness :
    (endInterview mockQuestions
        (oneScored ++ mkSkip monoE.idx :: [])).overall_score ≤
      (endInterview mockQuestions (oneScored ++ monoE :: [])).overall_score :=
  overall_score_skip_monotone mockQuestions oneScored [] monoE
    (by decide) (by decide) rfl (by decide)

end Sata
